import Mathlib

/-!
Verification of the stratumrpc JSON-RPC codec (package stratumrpc, one Go
source file of ~230 lines) against its natural-language specification.

The codec sits between a byte stream carrying JSON values and an RPC engine
that only understands uint64 sequence numbers.  We shallowly embed the four
codec operations `ReadHeader`, `ReadRequestBody`, `WriteRequest` and
`WriteResponse` together with the per-connection mutable state (the pending
map and the sequence counter).  JSON values already decoded from the wire are
modelled by the inductive `Json` below; Go's `json.RawMessage` fields are
modelled as the `Json` value they hold (a `*json.RawMessage` that is nil —
field absent or JSON null — is `Option.none`).  Go runtime panics (nil
pointer dereference, failing type assertion, out-of-range index) are modelled
by an explicit `panicked` outcome, distinct from a returned error.
-/

namespace StratumRpc

/-- A JSON value as Go's encoding/json decodes it generically: numbers are
modelled as rationals (`float64` in Go), objects as field lists in source
order. -/
inductive Json where
  | null : Json
  | bool : Bool → Json
  | num : ℚ → Json
  | str : String → Json
  | arr : List Json → Json
  | obj : List (String × Json) → Json

/-- Modulus `2 ^ 64` of Go's `uint64` arithmetic. -/
def U64 : Nat := 2 ^ 64

/-- The mutable per-connection state of the codec guarded by `c.mutex`:
`pending` maps engine sequence numbers to the original wire id
(`*json.RawMessage`; `none` models a nil pointer stored in the map), and
`seq` is the uint64 sequence counter.  The Go map is modelled as an
association list with unique keys maintained by `mapInsert`. -/
structure CodecState where
  pending : List (Nat × Option Json)
  seq : Nat

/-- The state of a freshly created codec (`NewStratumCodec`): empty pending
map and zero sequence counter. -/
def initState : CodecState := { pending := [], seq := 0 }

/-- Lookup in the pending map: `b, ok := c.pending[k]`. -/
def mapLookup (k : Nat) : List (Nat × Option Json) → Option (Option Json)
  | [] => none
  | (k', v) :: rest => if k = k' then some v else mapLookup k rest

/-- Deletion from the pending map: `delete(c.pending, k)`. -/
def mapErase (k : Nat) : List (Nat × Option Json) → List (Nat × Option Json)
  | [] => []
  | (k', v) :: rest => if k = k' then mapErase k rest else (k', v) :: mapErase k rest

/-- Insertion `c.pending[k] = v` (Go map assignment replaces any previous
entry). -/
def mapInsert (k : Nat) (v : Option Json) (m : List (Nat × Option Json)) :
    List (Nat × Option Json) :=
  (k, v) :: mapErase k m

/-- The wire message as decoded into the combined `message` struct by
`c.dec.Decode(&c.msg)`: pointer fields (`Params`, `ID`, `Result`, all
`*json.RawMessage`) are `none` when the JSON field is absent or null; the
`interface{}`-typed `Error` field is `Json.null` when absent or null. -/
structure WireMsg where
  method : String := ""
  params : Option Json := none
  id : Option Json := none
  result : Option Json := none
  error : Json := Json.null

/-- Behaviour of `json.Unmarshal(raw, &u)` for `u : uint64`: succeeds exactly on a JSON
number that is a non-negative integer below `2^64`. -/
def decodeUint (j : Json) : Option Nat :=
  match j with
  | Json.num q =>
      if q.den = 1 ∧ 0 ≤ q.num ∧ q.num < (2 ^ 64 : Int) then some q.num.toNat else none
  | _ => none

/-- The observable outcome of `ReadHeader` on one decoded frame.
`request method seq` fills `req` (`seq = 0` when the frame is a notification
and `req.Seq` is left at its zero value); `response seq err` fills `resp`;
`errIdDecode`/`errInvalidError` are the two returned protocol-shape errors
(each carries the offending value that the Go error message formats);
`panicked` marks a Go runtime panic. -/
inductive HeaderResult where
  | request (method : String) (seq : Nat)
  | response (seq : Nat) (error : String)
  | errIdDecode (id : Option Json)
  | errInvalidError (e : Json)
  | panicked

/-- Embedding of `stratumCodec.ReadHeader`, lines 91–146 of the source, applied to one
already-decoded wire message.  Returns the outcome together with the updated
state; on the request path the scratch `serverRequest.Params` kept for the
following `ReadRequestBody` call is `msg.params`.

Request path (`msg.Method != ""`): a nil id is a notification; otherwise the
critical section increments `seq` (uint64, so modulo `2^64`) and records the
original id under the new sequence number.

Response path: `json.Unmarshal(*c.msg.ID, &c.clientResponse.ID)` dereferences
the `ID` pointer, a nil pointer (id absent or null) panics; a non-uint id
yields a returned unmarshal error.  A non-nil error field that is a string is
taken verbatim; an `[]interface{}` error takes `a[1].(string)` — which
panics when the array is shorter than two or position two is not a string —
and any other shape returns the `invalid error %v` error.  An empty message
becomes `"unspecified error"`. -/
def readHeader (st : CodecState) (msg : WireMsg) : HeaderResult × CodecState :=
  if msg.method ≠ "" then
    match msg.id with
    | none => (HeaderResult.request msg.method 0, st)
    | some j =>
        let s := (st.seq + 1) % U64
        (HeaderResult.request msg.method s,
          { pending := mapInsert s (some j) st.pending, seq := s })
  else
    match msg.id with
    | none => (HeaderResult.panicked, st)
    | some idJson =>
        match decodeUint idJson with
        | none => (HeaderResult.errIdDecode (some idJson), st)
        | some s =>
            match msg.error with
            | Json.null => (HeaderResult.response s "", st)
            | Json.str x =>
                (HeaderResult.response s (if x = "" then "unspecified error" else x), st)
            | Json.arr a =>
                match a.get? 1 with
                | some (Json.str x) =>
                    (HeaderResult.response s (if x = "" then "unspecified error" else x), st)
                | some _ => (HeaderResult.panicked, st)
                | none => (HeaderResult.panicked, st)
            | e => (HeaderResult.errInvalidError e, st)

example :
    (readHeader initState { method := "mining.subscribe", id := some (Json.num 7) }).1
      = HeaderResult.request "mining.subscribe" 1 := rfl

example :
    (readHeader initState
        { id := some (Json.num 3),
          error := Json.arr [Json.str "33", Json.str "Unauthorized", Json.null] }).1
      = HeaderResult.response 3 "Unauthorized" := rfl

example :
    (readHeader initState { result := some Json.null }).1 = HeaderResult.panicked := rfl

/-- The shape of the engine-supplied target `x` of `ReadRequestBody`:
`nilTarget` is `x == nil`; `listTarget` is the `*[]interface{}` case of the
type switch; `singleTarget` is the default case, a pointer to any other
value, which the codec wraps as the sole element of a synthetic slice. -/
inductive BodyTarget where
  | nilTarget
  | listTarget
  | singleTarget
deriving DecidableEq

/-- The observable outcome of `ReadRequestBody`: `okNone` decodes nothing
(nil target); `okList es` leaves the engine's `*[]interface{}` holding `es`;
`okSingle v` delivers `v` into the engine's single positional target through
the wrapped one-element slice (`none` when the wire params array was empty,
so the target was never written); `errMissingParams` is the distinguished
`errMissingParams` error; `errNotArray` is the `json.Unmarshal` type error
when the params value is not a JSON array. -/
inductive BodyResult where
  | okNone
  | okList (params : List Json)
  | okSingle (v : Option Json)
  | errMissingParams
  | errNotArray (p : Json)

/-- Embedding of `stratumCodec.ReadRequestBody`, lines 150–165 of the source.  The first
argument is the scratch `c.serverRequest.Params` saved by `ReadHeader`
(`none` models a nil pointer: params absent or JSON null).  A nil target
returns immediately; missing params with a non-nil target is the
distinguished error; otherwise the raw params are unmarshalled into a slice
(the engine's own for `listTarget`, a synthetic one-element slice holding the
engine's pointer for `singleTarget`): unmarshalling a JSON `null` leaves the
slice nil, a non-array fails, and an array decodes element-wise, so the
single target receives the head element, if any. -/
def readRequestBody (params : Option Json) (t : BodyTarget) : BodyResult :=
  match t with
  | BodyTarget.nilTarget => BodyResult.okNone
  | BodyTarget.listTarget =>
      match params with
      | none => BodyResult.errMissingParams
      | some Json.null => BodyResult.okList []
      | some (Json.arr es) => BodyResult.okList es
      | some p => BodyResult.errNotArray p
  | BodyTarget.singleTarget =>
      match params with
      | none => BodyResult.errMissingParams
      | some Json.null => BodyResult.okSingle none
      | some (Json.arr es) => BodyResult.okSingle es.head?
      | some p => BodyResult.errNotArray p

/-- The parameter value the engine hands to `WriteRequest`, as discriminated
by the type switch in lines 180–185: `list ps` is a value of static type
`[]interface{}`; `single v` is any other value (which marshals to the JSON
value `v`, possibly itself an array for a non-`[]interface{}` slice). -/
inductive Param where
  | list (ps : List Json)
  | single (v : Json)

/-- The engine's `rpc2.Request` as far as the codec reads it: method name and
uint64 sequence number. -/
structure Request where
  method : String
  seq : Nat

/-- Wire form of the `clientRequest` struct marshalled by `WriteRequest`: `id = none`
models the nil `*uint64` that marshals to JSON null. -/
structure ClientRequestWire where
  method : String
  params : List Json
  id : Option Nat

/-- Embedding of `stratumCodec.WriteRequest`, lines 178–194 of the source: a
`[]interface{}` parameter is sent as-is, any other single value is wrapped
into a one-element slice; a zero sequence number is the notification
encoding and sends a nil id. -/
def writeRequest (r : Request) (param : Param) : ClientRequestWire :=
  { method := r.method
  , params := match param with
      | Param.list ps => ps
      | Param.single v => [v]
  , id := if r.seq = 0 then none else some r.seq }

/-- Marshalling of `clientRequest` by `c.enc.Encode(req)`: all three fields
are emitted (no omitempty); a nil `*uint64` id marshals to JSON null. -/
def encodeClientRequest (r : ClientRequestWire) : Json :=
  Json.obj
    [ ("method", Json.str r.method)
    , ("params", Json.arr r.params)
    , ("id", match r.id with
        | none => Json.null
        | some n => Json.num (n : ℚ)) ]

/-- Last binding of a key in a JSON object, as Go's decoder keeps the last
occurrence of a duplicated key. -/
def lookupLast (k : String) : List (String × Json) → Option Json
  | [] => none
  | (k', v) :: rest =>
      match lookupLast k rest with
      | some w => some w
      | none => if k' = k then some v else none

/-- Reads a `*json.RawMessage` field of the `message` struct: absent or JSON
null gives a nil pointer. -/
def optField (fs : List (String × Json)) (k : String) : Option Json :=
  match lookupLast k fs with
  | none => none
  | some Json.null => none
  | some j => some j

/-- Decoding one wire JSON value into the `message` struct
(`c.dec.Decode(&c.msg)` on a fresh `message{}`): only an object (or JSON
null, which leaves the struct zeroed) decodes; a null or absent `method`
leaves the empty string and a non-string `method` is a decode error
(`none`); pointer fields become nil on absence or null; the `interface{}`
error field keeps the generic value, `Json.null` when absent. -/
def decodeMsg : Json → Option WireMsg
  | Json.obj fs =>
      match lookupLast "method" fs with
      | some (Json.bool _) => none
      | some (Json.num _) => none
      | some (Json.arr _) => none
      | some (Json.obj _) => none
      | m =>
          some
            { method := match m with
                | some (Json.str s) => s
                | _ => ""
            , params := optField fs "params"
            , id := optField fs "id"
            , result := optField fs "result"
            , error := match lookupLast "error" fs with
                | none => Json.null
                | some e => e }
  | Json.null => some {}
  | _ => none

example :
    decodeMsg (encodeClientRequest (writeRequest { method := "m", seq := 0 }
        (Param.single (Json.num 5))))
      = some { method := "m", params := some (Json.arr [Json.num 5]) } := rfl

/-- JSON insignificant whitespace, as accepted between tokens by Go's
decoder. -/
def isWsChar (c : Char) : Bool :=
  c = ' ' || c = '\t' || c = '\n' || c = '\r'

/-- Drops leading JSON whitespace. -/
def skipWs : List Char → List Char
  | [] => []
  | c :: cs => if isWsChar c then skipWs cs else c :: cs

/-- Value of one hexadecimal digit. -/
def hexDigit (c : Char) : Option Nat :=
  if '0' ≤ c ∧ c ≤ '9' then some (c.toNat - '0'.toNat)
  else if 'a' ≤ c ∧ c ≤ 'f' then some (c.toNat - 'a'.toNat + 10)
  else if 'A' ≤ c ∧ c ≤ 'F' then some (c.toNat - 'A'.toNat + 10)
  else none

/-- Four hexadecimal digits of a `\\u` escape. -/
def hex4 : List Char → Option (Nat × List Char)
  | a :: b :: c :: d :: rest =>
      match hexDigit a, hexDigit b, hexDigit c, hexDigit d with
      | some x, some y, some z, some w => some ((((x * 16 + y) * 16 + z) * 16 + w), rest)
      | _, _, _, _ => none
  | _ => none

/-- Body of a JSON string literal after the opening quote: standard escapes,
`\\u` escapes with surrogate pairing (an unpaired surrogate becomes U+FFFD,
as in Go's decoder), and a rejection of raw control characters. -/
def parseStringAux (fuel : Nat) (cs : List Char) (acc : List Char) :
    Option (String × List Char) :=
  match fuel with
  | 0 => none
  | fuel + 1 =>
      match cs with
      | [] => none
      | c :: rest =>
          if c = '"' then some (String.mk acc.reverse, rest)
          else if c = '\\' then
            match rest with
            | [] => none
            | e :: rest' =>
                if e = '"' ∨ e = '\\' ∨ e = '/' then parseStringAux fuel rest' (e :: acc)
                else if e = 'b' then parseStringAux fuel rest' (Char.ofNat 8 :: acc)
                else if e = 'f' then parseStringAux fuel rest' (Char.ofNat 12 :: acc)
                else if e = 'n' then parseStringAux fuel rest' ('\n' :: acc)
                else if e = 'r' then parseStringAux fuel rest' ('\r' :: acc)
                else if e = 't' then parseStringAux fuel rest' ('\t' :: acc)
                else if e = 'u' then
                  match hex4 rest' with
                  | none => none
                  | some (n, rest2) =>
                      if 0xD800 ≤ n ∧ n < 0xDC00 then
                        match rest2 with
                        | '\\' :: 'u' :: rest3 =>
                            match hex4 rest3 with
                            | some (m, rest4) =>
                                if 0xDC00 ≤ m ∧ m < 0xE000 then
                                  parseStringAux fuel rest4
                                    (Char.ofNat (0x10000 + (n - 0xD800) * 0x400 + (m - 0xDC00)) :: acc)
                                else parseStringAux fuel rest2 (Char.ofNat 0xFFFD :: acc)
                            | none => parseStringAux fuel rest2 (Char.ofNat 0xFFFD :: acc)
                        | _ => parseStringAux fuel rest2 (Char.ofNat 0xFFFD :: acc)
                      else if 0xDC00 ≤ n ∧ n < 0xE000 then
                        parseStringAux fuel rest2 (Char.ofNat 0xFFFD :: acc)
                      else parseStringAux fuel rest2 (Char.ofNat n :: acc)
                else none
          else if c.toNat < 0x20 then none
          else parseStringAux fuel rest (c :: acc)

/-- Longest digit prefix. -/
def spanDigits : List Char → List Char × List Char
  | [] => ([], [])
  | c :: cs =>
      if c.isDigit then
        match spanDigits cs with
        | (ds, rest) => (c :: ds, rest)
      else ([], c :: cs)

/-- Digit list to natural number. -/
def digitsToNat (ds : List Char) : Nat :=
  ds.foldl (fun n c => n * 10 + (c.toNat - '0'.toNat)) 0

/-- JSON integer part: a lone `0` or a nonzero digit followed by digits (no
leading zeros). -/
def parseIntPart : List Char → Option (List Char × List Char)
  | [] => none
  | c :: cs =>
      if c = '0' then some ([c], cs)
      else if c.isDigit then
        match spanDigits cs with
        | (ds, rest) => some (c :: ds, rest)
      else none

/-- Optional JSON fraction part: `.` must be followed by at least one
digit. -/
def parseFrac : List Char → Option (List Char × List Char)
  | '.' :: rest =>
      match spanDigits rest with
      | ([], _) => none
      | (ds, rest') => some (ds, rest')
  | cs => some (([] : List Char), cs)

/-- Optional JSON exponent part: returns the signed exponent, `0` when
absent. -/
def parseExp : List Char → Option (Int × List Char)
  | [] => some (0, [])
  | c :: rest =>
      if c = 'e' ∨ c = 'E' then
        match
          (match rest with
            | '+' :: r => ((1 : Int), r)
            | '-' :: r => ((-1 : Int), r)
            | r => ((1 : Int), r)) with
        | (sgn, rest1) =>
            match spanDigits rest1 with
            | ([], _) => none
            | (ds, rest2) => some (sgn * (digitsToNat ds : Int), rest2)
      else some (0, c :: rest)

/-- A JSON number literal, as a rational: sign, integer part, optional
fraction, optional exponent. -/
def parseNumber (cs : List Char) : Option (ℚ × List Char) :=
  match
    (match cs with
      | '-' :: rest => (true, rest)
      | _ => (false, cs)) with
  | (neg, cs1) =>
      match parseIntPart cs1 with
      | none => none
      | some (ints, cs2) =>
          match parseFrac cs2 with
          | none => none
          | some (fracs, cs3) =>
              match parseExp cs3 with
              | none => none
              | some (ex, cs4) =>
                  let mant : ℚ := (digitsToNat (ints ++ fracs) : ℚ)
                  let value : ℚ := mant * (10 : ℚ) ^ (ex - (fracs.length : Int))
                  some (if neg then -value else value, cs4)

mutual

/-- One JSON value starting at the head of the input (leading whitespace
already skipped), with the unconsumed remainder. -/
def parseVal (fuel : Nat) (cs : List Char) : Option (Json × List Char) :=
  match fuel with
  | 0 => none
  | fuel + 1 =>
      match cs with
      | [] => none
      | c :: rest =>
          if c = 'n' then
            match rest with
            | 'u' :: 'l' :: 'l' :: r => some (Json.null, r)
            | _ => none
          else if c = 't' then
            match rest with
            | 'r' :: 'u' :: 'e' :: r => some (Json.bool true, r)
            | _ => none
          else if c = 'f' then
            match rest with
            | 'a' :: 'l' :: 's' :: 'e' :: r => some (Json.bool false, r)
            | _ => none
          else if c = '"' then
            match parseStringAux (rest.length + 1) rest [] with
            | some (s, r) => some (Json.str s, r)
            | none => none
          else if c = '[' then
            match skipWs rest with
            | ']' :: r => some (Json.arr [], r)
            | r =>
                match parseElems fuel r with
                | some (es, r') => some (Json.arr es, r')
                | none => none
          else if c = '\x7b' then
            match skipWs rest with
            | '\x7d' :: r => some (Json.obj [], r)
            | r =>
                match parseMembers fuel r with
                | some (ms, r') => some (Json.obj ms, r')
                | none => none
          else if c = '-' ∨ c.isDigit then
            match parseNumber (c :: rest) with
            | some (q, r) => some (Json.num q, r)
            | none => none
          else none

/-- Comma-separated JSON array elements up to the closing bracket. -/
def parseElems (fuel : Nat) (cs : List Char) : Option (List Json × List Char) :=
  match fuel with
  | 0 => none
  | fuel + 1 =>
      match parseVal fuel (skipWs cs) with
      | none => none
      | some (j, r) =>
          match skipWs r with
          | ',' :: r' =>
              match parseElems fuel r' with
              | some (es, r'') => some (j :: es, r'')
              | none => none
          | ']' :: r' => some ([j], r')
          | _ => none

/-- Comma-separated JSON object members up to the closing brace. -/
def parseMembers (fuel : Nat) (cs : List Char) :
    Option (List (String × Json) × List Char) :=
  match fuel with
  | 0 => none
  | fuel + 1 =>
      match skipWs cs with
      | '"' :: r =>
          match parseStringAux (r.length + 1) r [] with
          | none => none
          | some (k, r1) =>
              match skipWs r1 with
              | ':' :: r2 =>
                  match parseVal fuel (skipWs r2) with
                  | none => none
                  | some (v, r3) =>
                      match skipWs r3 with
                      | ',' :: r4 =>
                          match parseMembers fuel r4 with
                          | some (ms, r5) => some ((k, v) :: ms, r5)
                          | none => none
                      | '\x7d' :: r4 => some ([(k, v)], r4)
                      | _ => none
              | _ => none
      | _ => none

end

/-- One complete JSON text: a single value with only whitespace around it,
as `json.Unmarshal` requires. -/
def parseJson (s : String) : Option Json :=
  match parseVal (s.length + 1) (skipWs s.data) with
  | some (j, rest) =>
      match skipWs rest with
      | [] => some j
      | _ => none
  | none => none

example : parseJson "null" = some Json.null := rfl

example :
    parseJson " [\"33\", \"Unauthorized\", null] "
      = some (Json.arr [Json.str "33", Json.str "Unauthorized", Json.null]) := rfl

example : parseJson "Some error" = none := rfl

example : parseJson "[-2.50e1]" = some (Json.arr [Json.num (-25)]) := by
  have h : parseJson "[-2.50e1]" = some (Json.arr [Json.num (-(250 * (10 : ℚ) ^ (1 - (2 : ℤ))))]) := rfl
  rw [h]
  norm_num

/-- Behaviour of `json.Unmarshal([]byte(s), &iErr)` with `iErr` an untyped slice:
`none` is a returned error; `some none` is success leaving `iErr` nil (the
JSON text `null`); `some (some es)` is success with the decoded array. -/
def unmarshalSlice (s : String) : Option (Option (List Json)) :=
  match parseJson s with
  | some (Json.arr es) => some (some es)
  | some Json.null => some none
  | _ => none

/-- The engine's `rpc2.Response` as far as the codec reads it: sequence
number and error text (empty = success). -/
structure Response where
  seq : Nat
  error : String

/-- The `serverResponse` struct marshalled by `WriteResponse`.  All three
fields are `Json` values as they appear on the wire (no omitempty): a nil
`Result`/`Error` interface marshals to JSON null, and a nil `[]interface{}`
slice also marshals to JSON null. -/
structure ServerResponseWire where
  id : Json
  result : Json
  error : Json

/-- Embedding of `stratumCodec.WriteResponse`, lines 198–226 of the source.  Under the
mutex, the pending entry for `r.Seq` is looked up and deleted; a missing
entry returns the `invalid sequence number in response` error before
anything is encoded, leaving the state unchanged.  A nil stored id (the
defensive `b == nil` case) is replaced by JSON null.  With an empty error
text the result is emitted and the error is null; otherwise the error text
is unmarshalled into `[]interface{}`: on success the decoded slice is
emitted (a nil slice, from the text `null`, marshals to JSON null), on
failure the text itself is emitted as a JSON string, and the result stays
null in both cases. -/
def writeResponse (st : CodecState) (r : Response) (x : Json) :
    Except String ServerResponseWire × CodecState :=
  match mapLookup r.seq st.pending with
  | none => (Except.error "invalid sequence number in response", st)
  | some b =>
      let st' : CodecState := { pending := mapErase r.seq st.pending, seq := st.seq }
      let idJson : Json := match b with
        | none => Json.null
        | some j => j
      if r.error = "" then
        (Except.ok { id := idJson, result := x, error := Json.null }, st')
      else
        match unmarshalSlice r.error with
        | some (some es) =>
            (Except.ok { id := idJson, result := Json.null, error := Json.arr es }, st')
        | some none =>
            (Except.ok { id := idJson, result := Json.null, error := Json.null }, st')
        | none =>
            (Except.ok { id := idJson, result := Json.null, error := Json.str r.error }, st')

example :
    (writeResponse { pending := [(1, some (Json.num 7))], seq := 1 }
        { seq := 1, error := "" } (Json.num 3)).1
      = Except.ok { id := Json.num 7, result := Json.num 3, error := Json.null } := rfl

example :
    (writeResponse { pending := [(1, some (Json.num 7))], seq := 1 }
        { seq := 2, error := "" } (Json.num 3)).1
      = Except.error "invalid sequence number in response" := rfl

/-- One invocation of a state-touching codec operation on a connection:
`read` is a `ReadHeader` call on the next decoded frame, `writeResp` a
`WriteResponse` call, `writeReq` a `WriteRequest` call (which never touches
the pending map or the counter). -/
inductive Op where
  | read (msg : WireMsg)
  | writeResp (r : Response) (x : Json)
  | writeReq (r : Request) (p : Param)

/-- Effect of one operation on the codec state. -/
def step (st : CodecState) : Op → CodecState
  | Op.read m => (readHeader st m).2
  | Op.writeResp r x => (writeResponse st r x).2
  | Op.writeReq _ _ => st

/-- State after a sequence of operations. -/
def runFrom (st : CodecState) : List Op → CodecState
  | [] => st
  | op :: ops => runFrom (step st op) ops

/-- A decoded frame that `ReadHeader` classifies as an inbound request
carrying a non-null id (the frames that consume a sequence number). -/
def isIdRequest (m : WireMsg) : Bool :=
  decide (m.method ≠ "") && m.id.isSome

/-- Number of sequence-consuming requests read along a trace. -/
def idReqCount : List Op → Nat
  | [] => 0
  | Op.read m :: ops => (if isIdRequest m then 1 else 0) + idReqCount ops
  | Op.writeResp _ _ :: ops => idReqCount ops
  | Op.writeReq _ _ :: ops => idReqCount ops

/-- The sequence numbers `ReadHeader` reports to the engine (via `req.Seq`)
along a trace, in order. -/
def issuedFrom (st : CodecState) : List Op → List Nat
  | [] => []
  | Op.read m :: ops =>
      if isIdRequest m then ((st.seq + 1) % U64) :: issuedFrom (step st (Op.read m)) ops
      else issuedFrom (step st (Op.read m)) ops
  | Op.writeResp r x :: ops => issuedFrom (step st (Op.writeResp r x)) ops
  | Op.writeReq r p :: ops => issuedFrom (step st (Op.writeReq r p)) ops

/-- No `WriteResponse` call in the trace answers sequence number `s`. -/
def noWriteRespAt (s : Nat) (ops : List Op) : Prop :=
  ∀ r x, Op.writeResp r x ∈ ops → r.seq ≠ s

theorem mapLookup_erase (s k : Nat) (m : List (Nat × Option Json)) :
    mapLookup s (mapErase k m) = if s = k then none else mapLookup s m := by
  induction m with
  | nil => by_cases hs : s = k <;> simp [mapErase, mapLookup, hs]
  | cons p rest ih =>
      obtain ⟨k', v⟩ := p
      by_cases hk : k = k' <;> by_cases hs1 : s = k <;> by_cases hs2 : s = k' <;>
        simp_all [mapErase, mapLookup]

theorem mapLookup_insert (s k : Nat) (v : Option Json) (m : List (Nat × Option Json)) :
    mapLookup s (mapInsert k v m) = if s = k then some v else mapLookup s m := by
  by_cases hs : s = k
  · simp [mapInsert, mapLookup, hs]
  · simp [mapInsert, mapLookup, hs, mapLookup_erase]

theorem isIdRequest_id (m : WireMsg) (h : isIdRequest m = true) :
    m.method ≠ "" ∧ ∃ j, m.id = some j := by
  unfold isIdRequest at h
  rw [Bool.and_eq_true, decide_eq_true_iff, Option.isSome_iff_exists] at h
  exact ⟨h.1, h.2⟩

theorem readHeader_id_request (st : CodecState) (m : WireMsg) (j : Json)
    (hm : m.method ≠ "") (hj : m.id = some j) :
    readHeader st m
      = (HeaderResult.request m.method ((st.seq + 1) % U64),
         { pending := mapInsert ((st.seq + 1) % U64) (some j) st.pending,
           seq := (st.seq + 1) % U64 }) := by
  unfold readHeader
  rw [if_pos hm, hj]

theorem readHeader_state_of_not_id (st : CodecState) (m : WireMsg)
    (h : isIdRequest m = false) : (readHeader st m).2 = st := by
  unfold readHeader
  by_cases hm : m.method ≠ ""
  · rw [if_pos hm]
    rcases hid : m.id with _ | j
    · rfl
    · exfalso
      unfold isIdRequest at h
      rw [hid] at h
      simp [hm] at h
  · rw [if_neg hm]
    split
    · rfl
    · split
      · rfl
      · split <;> first | rfl | (split <;> rfl)

theorem writeResponse_state_none (st : CodecState) (r : Response) (x : Json)
    (h : mapLookup r.seq st.pending = none) : (writeResponse st r x).2 = st := by
  unfold writeResponse
  rw [h]

theorem writeResponse_state_some (st : CodecState) (r : Response) (x : Json)
    (b : Option Json) (h : mapLookup r.seq st.pending = some b) :
    (writeResponse st r x).2
      = { pending := mapErase r.seq st.pending, seq := st.seq } := by
  unfold writeResponse
  rw [h]
  dsimp only
  split
  · rfl
  · split <;> rfl

/-- Whether an operation consumes a sequence number (an id-carrying inbound
request). -/
def opConsumesSeq : Op → Bool
  | Op.read m => isIdRequest m
  | Op.writeResp _ _ => false
  | Op.writeReq _ _ => false

theorem step_seq (st : CodecState) (op : Op) :
    (step st op).seq = if opConsumesSeq op then (st.seq + 1) % U64 else st.seq := by
  rcases op with m | ⟨r, x⟩ | ⟨r, p⟩
  · rcases h : isIdRequest m with _ | _
    · simp [step, opConsumesSeq, readHeader_state_of_not_id st m h, h]
    · obtain ⟨hm, j, hj⟩ := isIdRequest_id m h
      simp [step, opConsumesSeq, readHeader_id_request st m j hm hj, h]
  · rcases h : mapLookup r.seq st.pending with _ | b
    · simp [step, opConsumesSeq, writeResponse_state_none st r x h]
    · simp [step, opConsumesSeq, writeResponse_state_some st r x b h]
  · simp [step, opConsumesSeq]

theorem idReqCount_cons (op : Op) (ops : List Op) :
    idReqCount (op :: ops) = (if opConsumesSeq op then 1 else 0) + idReqCount ops := by
  rcases op with m | ⟨r, x⟩ | ⟨r, p⟩ <;> simp [idReqCount, opConsumesSeq]

theorem idReqCount_append : ∀ xs ys : List Op,
    idReqCount (xs ++ ys) = idReqCount xs + idReqCount ys
  | [], ys => by simp [idReqCount]
  | op :: xs, ys => by
      rw [List.cons_append, idReqCount_cons, idReqCount_cons, idReqCount_append xs ys]
      omega

theorem runFrom_append (st : CodecState) : ∀ xs ys : List Op,
    runFrom st (xs ++ ys) = runFrom (runFrom st xs) ys := by
  intro xs
  induction xs generalizing st with
  | nil => intro ys; rfl
  | cons op xs ih => intro ys; exact ih (step st op) ys

theorem issuedFrom_cons (st : CodecState) (op : Op) (ops : List Op) :
    issuedFrom st (op :: ops)
      = (if opConsumesSeq op then [(st.seq + 1) % U64] else [])
          ++ issuedFrom (step st op) ops := by
  rcases op with m | ⟨r, x⟩ | ⟨r, p⟩
  · rcases h : isIdRequest m with _ | _ <;> simp [issuedFrom, opConsumesSeq, h]
  · simp [issuedFrom, opConsumesSeq]
  · simp [issuedFrom, opConsumesSeq]

theorem runFrom_seq : ∀ (ops : List Op) (st : CodecState),
    st.seq + idReqCount ops < U64 →
    (runFrom st ops).seq = st.seq + idReqCount ops
  | [], st, _ => by simp [runFrom, idReqCount]
  | op :: ops, st, h => by
      have hcons := idReqCount_cons op ops
      have hstep := step_seq st op
      rcases hc : opConsumesSeq op with _ | _
      · simp only [hc, if_false, Bool.false_eq_true] at hstep
        simp only [hc, if_false, Bool.false_eq_true, Nat.zero_add] at hcons
        rw [hcons] at h ⊢
        have h' : (step st op).seq + idReqCount ops < U64 := by rw [hstep]; exact h
        show (runFrom (step st op) ops).seq = st.seq + idReqCount ops
        rw [runFrom_seq ops (step st op) h', hstep]
      · simp only [hc, if_true] at hstep
        simp only [hc, if_true] at hcons
        rw [hcons] at h ⊢
        have hlt : st.seq + 1 < U64 := by omega
        have hmod : (st.seq + 1) % U64 = st.seq + 1 := Nat.mod_eq_of_lt hlt
        have h' : (step st op).seq + idReqCount ops < U64 := by
          rw [hstep, hmod]; omega
        show (runFrom (step st op) ops).seq = st.seq + (1 + idReqCount ops)
        rw [runFrom_seq ops (step st op) h', hstep, hmod]
        omega

theorem issuedFrom_eq : ∀ (ops : List Op) (st : CodecState),
    st.seq + idReqCount ops < U64 →
    issuedFrom st ops = List.range' (st.seq + 1) (idReqCount ops)
  | [], st, _ => by simp [issuedFrom, idReqCount]
  | op :: ops, st, h => by
      have hcons := idReqCount_cons op ops
      have hstep := step_seq st op
      rw [issuedFrom_cons]
      rcases hc : opConsumesSeq op with _ | _
      · simp only [hc, if_false, Bool.false_eq_true, Nat.zero_add] at hstep hcons
        rw [hcons] at h ⊢
        have h' : (step st op).seq + idReqCount ops < U64 := by rw [hstep]; exact h
        rw [issuedFrom_eq ops (step st op) h', hstep]
        simp
      · simp only [hc, if_true] at hstep hcons
        rw [hcons] at h ⊢
        have hlt : st.seq + 1 < U64 := by omega
        have hmod : (st.seq + 1) % U64 = st.seq + 1 := Nat.mod_eq_of_lt hlt
        have h' : (step st op).seq + idReqCount ops < U64 := by
          rw [hstep, hmod]; omega
        rw [issuedFrom_eq ops (step st op) h', hstep, hmod]
        have : 1 + idReqCount ops = idReqCount ops + 1 := Nat.add_comm _ _
        rw [this, List.range'_succ]
        simp

theorem step_lookup_preserve (st : CodecState) (op : Op) (k : Nat) (v : Option Json)
    (hl : mapLookup k st.pending = some v)
    (hnr : ∀ r x, op = Op.writeResp r x → r.seq ≠ k)
    (hni : ∀ m, op = Op.read m → isIdRequest m = true → (st.seq + 1) % U64 ≠ k) :
    mapLookup k (step st op).pending = some v := by
  rcases op with m | ⟨r, x⟩ | ⟨r, p⟩
  · rcases h : isIdRequest m with _ | _
    · rw [show step st (Op.read m) = (readHeader st m).2 from rfl,
        readHeader_state_of_not_id st m h]
      exact hl
    · obtain ⟨hm, j, hj⟩ := isIdRequest_id m h
      rw [show step st (Op.read m) = (readHeader st m).2 from rfl,
        readHeader_id_request st m j hm hj]
      dsimp only
      rw [mapLookup_insert, if_neg (fun hk => hni m rfl h hk.symm)]
      exact hl
  · rcases hlk : mapLookup r.seq st.pending with _ | b
    · rw [show step st (Op.writeResp r x) = (writeResponse st r x).2 from rfl,
        writeResponse_state_none st r x hlk]
      exact hl
    · rw [show step st (Op.writeResp r x) = (writeResponse st r x).2 from rfl,
        writeResponse_state_some st r x b hlk]
      dsimp only
      rw [mapLookup_erase, if_neg (fun hk => hnr r x rfl hk.symm)]
      exact hl
  · exact hl

theorem step_lookup_new (st : CodecState) (op : Op) (k : Nat)
    (h0 : mapLookup k st.pending = none)
    (hnew : mapLookup k (step st op).pending ≠ none) :
    ∃ m, op = Op.read m ∧ isIdRequest m = true ∧ k = (st.seq + 1) % U64 := by
  rcases op with m | ⟨r, x⟩ | ⟨r, p⟩
  · rcases h : isIdRequest m with _ | _
    · rw [show step st (Op.read m) = (readHeader st m).2 from rfl,
        readHeader_state_of_not_id st m h, h0] at hnew
      exact absurd rfl hnew
    · obtain ⟨hm, j, hj⟩ := isIdRequest_id m h
      rw [show step st (Op.read m) = (readHeader st m).2 from rfl,
        readHeader_id_request st m j hm hj] at hnew
      dsimp only at hnew
      rw [mapLookup_insert] at hnew
      by_cases hk : k = (st.seq + 1) % U64
      · exact ⟨m, rfl, h, hk⟩
      · rw [if_neg hk, h0] at hnew
        exact absurd rfl hnew
  · rcases hlk : mapLookup r.seq st.pending with _ | b
    · rw [show step st (Op.writeResp r x) = (writeResponse st r x).2 from rfl,
        writeResponse_state_none st r x hlk, h0] at hnew
      exact absurd rfl hnew
    · rw [show step st (Op.writeResp r x) = (writeResponse st r x).2 from rfl,
        writeResponse_state_some st r x b hlk] at hnew
      dsimp only at hnew
      rw [mapLookup_erase] at hnew
      by_cases hk : k = r.seq
      · rw [if_pos hk] at hnew
        exact absurd rfl hnew
      · rw [if_neg hk, h0] at hnew
        exact absurd rfl hnew
  · rw [show step st (Op.writeReq r p) = st from rfl, h0] at hnew
    exact absurd rfl hnew

theorem run_lookup_mem_issued : ∀ (ops : List Op) (st : CodecState) (k : Nat),
    mapLookup k st.pending = none →
    mapLookup k (runFrom st ops).pending ≠ none →
    k ∈ issuedFrom st ops
  | [], _, _, h0, hne => absurd h0 hne
  | op :: ops, st, k, h0, hne => by
      rcases hx : mapLookup k (step st op).pending with _ | b
      · have hmem := run_lookup_mem_issued ops (step st op) k hx hne
        rw [issuedFrom_cons]
        exact List.mem_append_right _ hmem
      · have hx' : mapLookup k (step st op).pending ≠ none := by rw [hx]; simp
        obtain ⟨m, hop, hid, hk⟩ := step_lookup_new st op k h0 hx'
        rw [issuedFrom_cons]
        apply List.mem_append_left
        subst hop
        simp [opConsumesSeq, hid, hk]

theorem run_pending_bounded : ∀ (ops : List Op) (st : CodecState),
    st.seq + idReqCount ops < U64 →
    (∀ k, mapLookup k st.pending ≠ none → 1 ≤ k ∧ k ≤ st.seq) →
    ∀ k, mapLookup k (runFrom st ops).pending ≠ none →
      1 ≤ k ∧ k ≤ (runFrom st ops).seq
  | [], _, _, hb, k, hne => hb k hne
  | op :: ops, st, h, hb, k, hne => by
      have hcons := idReqCount_cons op ops
      have hstep := step_seq st op
      have hle : st.seq ≤ (step st op).seq ∧ (step st op).seq + idReqCount ops < U64 := by
        rcases hc : opConsumesSeq op with _ | _
        · simp only [hc, if_false, Bool.false_eq_true] at hstep
          simp only [hc, if_false, Bool.false_eq_true, Nat.zero_add] at hcons
          rw [hstep]
          omega
        · simp only [hc, if_true] at hstep hcons
          have hlt : st.seq + 1 < U64 := by omega
          rw [hstep, Nat.mod_eq_of_lt hlt]
          omega
      refine run_pending_bounded ops (step st op) hle.2 ?_ k hne
      intro k' hk'
      rcases op with m | ⟨r, x⟩ | ⟨r, p⟩
      · rcases hc : isIdRequest m with _ | _
        · rw [show step st (Op.read m) = (readHeader st m).2 from rfl,
            readHeader_state_of_not_id st m hc] at hk' ⊢
          exact hb k' hk'
        · obtain ⟨hm, j, hj⟩ := isIdRequest_id m hc
          have hlt : st.seq + 1 < U64 := by
            simp only [idReqCount_cons, opConsumesSeq, hc, if_true] at h
            omega
          rw [show step st (Op.read m) = (readHeader st m).2 from rfl,
            readHeader_id_request st m j hm hj] at hk' ⊢
          dsimp only at hk' ⊢
          rw [mapLookup_insert] at hk'
          rw [Nat.mod_eq_of_lt hlt] at hk' ⊢
          by_cases hkk : k' = st.seq + 1
          · omega
          · rw [if_neg hkk] at hk'
            have := hb k' hk'
            omega
      · rcases hlk : mapLookup r.seq st.pending with _ | b
        · rw [show step st (Op.writeResp r x) = (writeResponse st r x).2 from rfl,
            writeResponse_state_none st r x hlk] at hk' ⊢
          exact hb k' hk'
        · rw [show step st (Op.writeResp r x) = (writeResponse st r x).2 from rfl,
            writeResponse_state_some st r x b hlk] at hk' ⊢
          dsimp only at hk' ⊢
          rw [mapLookup_erase] at hk'
          by_cases hkk : k' = r.seq
          · rw [if_pos hkk] at hk'
            exact absurd rfl hk'
          · rw [if_neg hkk] at hk'
            exact hb k' hk'
      · exact hb k' hk'

theorem run_lookup_preserved : ∀ (ops : List Op) (st : CodecState) (k : Nat) (v : Option Json),
    st.seq + idReqCount ops < U64 →
    k ≤ st.seq →
    mapLookup k st.pending = some v →
    noWriteRespAt k ops →
    mapLookup k (runFrom st ops).pending = some v
  | [], _, _, _, _, _, hl, _ => hl
  | op :: ops, st, k, v, h, hk, hl, hnw => by
      have hcons := idReqCount_cons op ops
      have hstep := step_seq st op
      have hstep_lookup : mapLookup k (step st op).pending = some v := by
        refine step_lookup_preserve st op k v hl ?_ ?_
        · intro r x hop
          exact hnw r x (by rw [hop]; exact List.mem_cons_self _ _)
        · intro m hop hid
          subst hop
          rw [idReqCount_cons] at h
          simp only [opConsumesSeq, hid, if_true] at h
          have hlt : st.seq + 1 < U64 := by omega
          rw [Nat.mod_eq_of_lt hlt]
          omega
      have hle : k ≤ (step st op).seq ∧ (step st op).seq + idReqCount ops < U64 := by
        rcases hc : opConsumesSeq op with _ | _
        · simp only [hc, if_false, Bool.false_eq_true] at hstep
          simp only [hc, if_false, Bool.false_eq_true, Nat.zero_add] at hcons
          rw [hstep]
          omega
        · simp only [hc, if_true] at hstep hcons
          have hlt : st.seq + 1 < U64 := by omega
          rw [hstep, Nat.mod_eq_of_lt hlt]
          omega
      exact run_lookup_preserved ops (step st op) k v hle.2 hle.1 hstep_lookup
        (fun r x hm => hnw r x (List.mem_cons_of_mem _ hm))

/-- Claim C6: an inbound request that declared no params makes
`ReadRequestBody` with a non-nil target fail with the distinguished missing
params error, while `ReadRequestBody` with a nil target succeeds trivially,
decoding nothing. -/
theorem c6_missing_params_distinguished (m : WireMsg) (t : BodyTarget)
    (hp : m.params = none) (ht : t ≠ BodyTarget.nilTarget) :
    readRequestBody m.params t = BodyResult.errMissingParams
    ∧ readRequestBody m.params BodyTarget.nilTarget = BodyResult.okNone := by
  constructor
  · rcases t with _ | _ | _
    · exact absurd rfl ht
    · rw [hp]
      rfl
    · rw [hp]
      rfl
  · rfl

theorem c6_missing_params_distinguished_witness :
    readRequestBody ({ method := "mining.ping" } : WireMsg).params BodyTarget.listTarget
        = BodyResult.errMissingParams
    ∧ readRequestBody ({ method := "mining.ping" } : WireMsg).params BodyTarget.nilTarget
        = BodyResult.okNone :=
  c6_missing_params_distinguished { method := "mining.ping" } BodyTarget.listTarget
    rfl (by decide)

/-- Claim C9: the frame serialized by `WriteRequest` carries a null id
exactly when the engine passed sequence number zero (the notification
encoding), and carries the sequence number as the id otherwise. -/
theorem c9_notification_null_id (r : Request) (p : Param) :
    ((writeRequest r p).id = none ↔ r.seq = 0)
    ∧ (r.seq ≠ 0 → (writeRequest r p).id = some r.seq)
    ∧ encodeClientRequest (writeRequest r p)
        = Json.obj
            [ ("method", Json.str r.method)
            , ("params", Json.arr (writeRequest r p).params)
            , ("id", if r.seq = 0 then Json.null else Json.num (r.seq : ℚ)) ] := by
  refine ⟨?_, ?_, ?_⟩
  · by_cases h : r.seq = 0 <;> simp [writeRequest, h]
  · intro h
    simp [writeRequest, h]
  · by_cases h : r.seq = 0 <;> simp [writeRequest, encodeClientRequest, h]

/-- Claim C5: a single non-list parameter value given to `WriteRequest` is
sent as a one-element positional array, and after decoding the emitted
frame, `ReadRequestBody` recovers it both for a handler expecting a list
(as the one-element list) and for a handler expecting the single value
positionally. -/
theorem c5_single_param_roundtrip (r : Request) (v : Json) :
    (writeRequest r (Param.single v)).params = [v]
    ∧ ∃ m, decodeMsg (encodeClientRequest (writeRequest r (Param.single v))) = some m
        ∧ m.params = some (Json.arr [v])
        ∧ readRequestBody m.params BodyTarget.listTarget = BodyResult.okList [v]
        ∧ readRequestBody m.params BodyTarget.singleTarget = BodyResult.okSingle (some v) := by
  refine ⟨rfl, ?_⟩
  by_cases h : r.seq = 0
  · have hw : writeRequest r (Param.single v)
        = { method := r.method, params := [v], id := none } := by
      unfold writeRequest
      rw [if_pos h]
    refine ⟨{ method := r.method, params := some (Json.arr [v]) }, ?_, rfl, rfl, rfl⟩
    rw [hw]
    rfl
  · have hw : writeRequest r (Param.single v)
        = { method := r.method, params := [v], id := some r.seq } := by
      unfold writeRequest
      rw [if_neg h]
    refine
      ⟨{ method := r.method, params := some (Json.arr [v]),
         id := some (Json.num (r.seq : ℚ)) }, ?_, rfl, rfl, rfl⟩
    rw [hw]
    rfl

/-- Claim C4: for an inbound response with a decodable id, the error
surfaced to the engine is the empty string when the wire error is absent or
null, the text at position two when it is an array with a string there, the
string itself when it is a non-empty string, and the placeholder
`unspecified error` whenever the resulting message would be empty. -/
theorem c4_response_error_surface (st : CodecState) (m : WireMsg) (i : Json) (s : Nat)
    (hm : m.method = "") (hid : m.id = some i) (hdec : decodeUint i = some s) :
    (m.error = Json.null → (readHeader st m).1 = HeaderResult.response s "")
    ∧ (∀ t, m.error = Json.str t → t ≠ "" →
        (readHeader st m).1 = HeaderResult.response s t)
    ∧ (m.error = Json.str "" →
        (readHeader st m).1 = HeaderResult.response s "unspecified error")
    ∧ (∀ a t, m.error = Json.arr a → a.get? 1 = some (Json.str t) → t ≠ "" →
        (readHeader st m).1 = HeaderResult.response s t)
    ∧ (∀ a, m.error = Json.arr a → a.get? 1 = some (Json.str "") →
        (readHeader st m).1 = HeaderResult.response s "unspecified error") := by
  have hnm : ¬m.method ≠ "" := by simp [hm]
  refine ⟨?_, ?_, ?_, ?_, ?_⟩
  · intro he
    unfold readHeader
    rw [if_neg hnm, hid]
    dsimp only
    rw [hdec]
    dsimp only
    rw [he]
  · intro t he ht
    unfold readHeader
    rw [if_neg hnm, hid]
    dsimp only
    rw [hdec]
    dsimp only
    rw [he]
    dsimp only
    rw [if_neg ht]
  · intro he
    unfold readHeader
    rw [if_neg hnm, hid]
    dsimp only
    rw [hdec]
    dsimp only
    rw [he]
    rfl
  · intro a t he hget ht
    unfold readHeader
    rw [if_neg hnm, hid]
    dsimp only
    rw [hdec]
    dsimp only
    rw [he]
    dsimp only
    rw [hget]
    dsimp only
    rw [if_neg ht]
  · intro a he hget
    unfold readHeader
    rw [if_neg hnm, hid]
    dsimp only
    rw [hdec]
    dsimp only
    rw [he]
    dsimp only
    rw [hget]
    rfl

theorem c4_response_error_surface_witness :
    (readHeader initState
        { id := some (Json.num 3),
          error := Json.arr [Json.str "33", Json.str "Unauthorized", Json.null] }).1
      = HeaderResult.response 3 "Unauthorized" :=
  (c4_response_error_surface initState
      { id := some (Json.num 3),
        error := Json.arr [Json.str "33", Json.str "Unauthorized", Json.null] }
      (Json.num 3) 3 rfl rfl rfl).2.2.2.1
    [Json.str "33", Json.str "Unauthorized", Json.null] "Unauthorized" rfl rfl (by decide)

/-- Claim C2: writing a response for a sequence number the codec never
issued returns the invalid-sequence error with the state unchanged (so
nothing is encoded and the pending map is untouched); and once a sequence
number has been answered successfully, answering it again likewise returns
that error with the state unchanged — it never silently no-ops. -/
theorem c2_unknown_or_answered_seq_fails (ops : List Op) (r : Response) (x : Json)
    (hs : r.seq ∉ issuedFrom initState ops) :
    writeResponse (runFrom initState ops) r x
        = (Except.error "invalid sequence number in response", runFrom initState ops)
    ∧ (∀ (st st' : CodecState) (frame : ServerResponseWire) (x' : Json),
        writeResponse st r x = (Except.ok frame, st') →
        writeResponse st' r x' = (Except.error "invalid sequence number in response", st')) := by
  constructor
  · have hnone : mapLookup r.seq (runFrom initState ops).pending = none := by
      rcases hx : mapLookup r.seq (runFrom initState ops).pending with _ | b
      · rfl
      · exfalso
        refine hs (run_lookup_mem_issued ops initState r.seq rfl ?_)
        rw [hx]
        simp
    unfold writeResponse
    rw [hnone]
  · intro st st' frame x' hok
    rcases hlk : mapLookup r.seq st.pending with _ | b
    · exfalso
      unfold writeResponse at hok
      rw [hlk] at hok
      exact Except.noConfusion (congrArg Prod.fst hok)
    · have hst' : st' = { pending := mapErase r.seq st.pending, seq := st.seq } := by
        rw [show st' = (writeResponse st r x).2 from (congrArg Prod.snd hok).symm,
          writeResponse_state_some st r x b hlk]
      have hnone : mapLookup r.seq st'.pending = none := by
        rw [hst']
        dsimp only
        rw [mapLookup_erase, if_pos rfl]
      unfold writeResponse
      rw [hnone]

theorem c2_unknown_or_answered_seq_fails_witness :
    writeResponse (runFrom initState [Op.read { method := "mining.auth", id := some (Json.num 7) }])
        { seq := 5, error := "" } Json.null
      = (Except.error "invalid sequence number in response",
         runFrom initState [Op.read { method := "mining.auth", id := some (Json.num 7) }]) :=
  (c2_unknown_or_answered_seq_fails
      [Op.read { method := "mining.auth", id := some (Json.num 7) }]
      { seq := 5, error := "" } Json.null (by decide)).1

/-- Claim C10: with fewer than `2^64` id-carrying requests on the
connection, the first sequence number issued is `1` and zero is never a
pending key, so `WriteResponse` at sequence zero always fails with the
unknown-sequence error and cannot collide with the `Seq == 0` notification
encoding of `WriteRequest`, which emits a null id. -/
theorem c10_zero_seq_reserved (ops : List Op) (h : idReqCount ops < U64) :
    mapLookup 0 (runFrom initState ops).pending = none
    ∧ (∀ s rest, issuedFrom initState ops = s :: rest → s = 1)
    ∧ (∀ (r : Response) (x : Json), r.seq = 0 →
        writeResponse (runFrom initState ops) r x
          = (Except.error "invalid sequence number in response", runFrom initState ops))
    ∧ (∀ (req : Request) (p : Param), req.seq = 0 → (writeRequest req p).id = none) := by
  have h0 : initState.seq + idReqCount ops < U64 := by
    rw [show initState.seq = 0 from rfl]
    omega
  have hzero : mapLookup 0 (runFrom initState ops).pending = none := by
    rcases hx : mapLookup 0 (runFrom initState ops).pending with _ | b
    · rfl
    · exfalso
      have hb := run_pending_bounded ops initState h0
        (fun k hk => absurd rfl hk) 0 (by rw [hx]; simp)
      omega
  refine ⟨hzero, ?_, ?_, ?_⟩
  · intro s rest heq
    rw [issuedFrom_eq ops initState h0, show initState.seq = 0 from rfl] at heq
    rcases hc : idReqCount ops with _ | n
    · rw [hc] at heq
      exact absurd heq (by simp)
    · rw [hc, List.range'_succ] at heq
      exact ((List.cons.injEq _ _ _ _).mp heq).1.symm
  · intro r x hr
    unfold writeResponse
    rw [hr, hzero]
  · intro req p hseq
    simp [writeRequest, hseq]

theorem c10_zero_seq_reserved_witness :
    mapLookup 0 (runFrom initState
        [Op.read { method := "mining.subscribe", id := some (Json.num 7) }]).pending = none
    ∧ (∀ s rest,
        issuedFrom initState
            [Op.read { method := "mining.subscribe", id := some (Json.num 7) }]
          = s :: rest → s = 1) :=
  ⟨(c10_zero_seq_reserved
      [Op.read { method := "mining.subscribe", id := some (Json.num 7) }] (by decide)).1,
   (c10_zero_seq_reserved
      [Op.read { method := "mining.subscribe", id := some (Json.num 7) }] (by decide)).2.1⟩

/-- Claim C1: with fewer than `2^64` id-carrying requests on the
connection, the sequence numbers `ReadHeader` issues are strictly
increasing (hence unique); an inbound request with non-null wire id `j`
read after the prefix `pre` is reported with the next sequence number, and
as long as no intervening `WriteResponse` answers that number, a later
`WriteResponse` for it serializes a frame whose id is exactly the original
wire value `j` (same JSON type and value). -/
theorem c1_seq_increasing_and_id_roundtrip (pre mid : List Op) (m : WireMsg)
    (j x : Json)
    (hm : m.method ≠ "") (hj : m.id = some j)
    (hcount : idReqCount (pre ++ Op.read m :: mid) < U64)
    (hnw : noWriteRespAt ((runFrom initState pre).seq + 1) mid) :
    List.Pairwise (· < ·) (issuedFrom initState (pre ++ Op.read m :: mid))
    ∧ (readHeader (runFrom initState pre) m).1
        = HeaderResult.request m.method ((runFrom initState pre).seq + 1)
    ∧ writeResponse (runFrom initState (pre ++ Op.read m :: mid))
          { seq := (runFrom initState pre).seq + 1, error := "" } x
        = (Except.ok { id := j, result := x, error := Json.null },
           { pending := mapErase ((runFrom initState pre).seq + 1)
               (runFrom initState (pre ++ Op.read m :: mid)).pending,
             seq := (runFrom initState (pre ++ Op.read m :: mid)).seq }) := by
  have hid : isIdRequest m = true := by
    unfold isIdRequest
    rw [hj]
    simp [hm]
  have h0 : initState.seq + idReqCount (pre ++ Op.read m :: mid) < U64 := by
    rw [show initState.seq = 0 from rfl]
    omega
  have hcnt_split : idReqCount (pre ++ Op.read m :: mid)
      = idReqCount pre + (1 + idReqCount mid) := by
    rw [idReqCount_append, idReqCount_cons]
    simp [opConsumesSeq, hid]
  have hseq_pre : (runFrom initState pre).seq = idReqCount pre := by
    have hpre : initState.seq + idReqCount pre < U64 := by
      rw [show initState.seq = 0 from rfl]
      omega
    have := runFrom_seq pre initState hpre
    rw [this, show initState.seq = 0 from rfl]
    omega
  have hslt : (runFrom initState pre).seq + 1 < U64 := by
    rw [hseq_pre]
    omega
  have hmod : ((runFrom initState pre).seq + 1) % U64 = (runFrom initState pre).seq + 1 :=
    Nat.mod_eq_of_lt hslt
  refine ⟨?_, ?_, ?_⟩
  · rw [issuedFrom_eq _ initState h0]
    exact List.pairwise_lt_range' _ _
  · rw [readHeader_id_request (runFrom initState pre) m j hm hj]
    dsimp only
    rw [hmod]
  · have hsplit : runFrom initState (pre ++ Op.read m :: mid)
        = runFrom (step (runFrom initState pre) (Op.read m)) mid := by
      rw [runFrom_append]
      rfl
    have hins : mapLookup ((runFrom initState pre).seq + 1)
        (step (runFrom initState pre) (Op.read m)).pending = some (some j) := by
      rw [show step (runFrom initState pre) (Op.read m)
            = (readHeader (runFrom initState pre) m).2 from rfl,
        readHeader_id_request _ m j hm hj]
      dsimp only
      rw [hmod, mapLookup_insert, if_pos rfl]
    have hstep_seq : (step (runFrom initState pre) (Op.read m)).seq
        = (runFrom initState pre).seq + 1 := by
      rw [step_seq]
      simp [opConsumesSeq, hid, hmod]
    have hpres : mapLookup ((runFrom initState pre).seq + 1)
        (runFrom initState (pre ++ Op.read m :: mid)).pending = some (some j) := by
      rw [hsplit]
      refine run_lookup_preserved mid _ _ (some j) ?_ ?_ hins hnw
      · rw [hstep_seq, hseq_pre]
        omega
      · rw [hstep_seq]
    unfold writeResponse
    rw [hpres]
    rfl

theorem c1_seq_increasing_and_id_roundtrip_witness :
    List.Pairwise (· < ·)
        (issuedFrom initState [Op.read { method := "hello", id := some (Json.str "abc") }])
    ∧ (readHeader initState { method := "hello", id := some (Json.str "abc") }).1
        = HeaderResult.request "hello" 1
    ∧ writeResponse (runFrom initState
          [Op.read { method := "hello", id := some (Json.str "abc") }])
          { seq := 1, error := "" } (Json.num 3)
        = (Except.ok { id := Json.str "abc", result := Json.num 3, error := Json.null },
           { pending := [], seq := 1 }) :=
  c1_seq_increasing_and_id_roundtrip [] []
    { method := "hello", id := some (Json.str "abc") } (Json.str "abc") (Json.num 3)
    (by decide) rfl (by decide) (fun r x h => absurd h (List.not_mem_nil _))

/-- Claim C3 (code behaviour at the failing inputs): for inbound responses,
a frame whose id is absent makes `ReadHeader` dereference the nil
`c.msg.ID` pointer, and an error field that is an array without a string in
position two makes the `a[1].(string)` assertion (or the index itself)
fail: both are runtime panics, not returned errors.  Only a non-uint id or
an error field that is neither a string nor an array produce returned
errors. -/
theorem c3_shape_anomalies_panic :
    (readHeader initState { result := some Json.null }).1 = HeaderResult.panicked
    ∧ (readHeader initState
        { id := some (Json.num 1), error := Json.arr [Json.num 0, Json.num 5] }).1
        = HeaderResult.panicked
    ∧ (readHeader initState
        { id := some (Json.num 1), error := Json.arr [Json.num 0] }).1
        = HeaderResult.panicked
    ∧ (readHeader initState { id := some (Json.str "x") }).1
        = HeaderResult.errIdDecode (some (Json.str "x"))
    ∧ (readHeader initState { id := some (Json.num 1), error := Json.num 33 }).1
        = HeaderResult.errInvalidError (Json.num 33) :=
  ⟨rfl, rfl, rfl, rfl, rfl⟩

/-- Mutex and stream actions performed by a write-path method of the codec,
in source order.  `lock`/`unlock` are `c.mutex.Lock()`/`c.mutex.Unlock()`;
`encode` is a `c.enc.Encode(...)` call on the shared stream encoder. -/
inductive WireAction where
  | lock
  | unlock
  | encode

/-- Action trace of `stratumCodec.WriteRequest` (lines 178–194): it builds the request
struct locally and calls `c.enc.Encode(req)` without ever touching
`c.mutex`. -/
def writeRequestActions : List WireAction :=
  [WireAction.encode]

/-- Action trace of `stratumCodec.WriteResponse` (lines 198–226), success path:
`c.mutex.Lock()` (line 201), lookup and delete of the pending entry,
`c.mutex.Unlock()` (line 208), and only then `c.enc.Encode(resp)` (line
225), outside the critical section. -/
def writeResponseActions : List WireAction :=
  [WireAction.lock, WireAction.unlock, WireAction.encode]

/-- Whether every stream `encode` in the action list is performed while the
mutex is held, tracking the lock depth. -/
def encodesLocked : List WireAction → Nat → Bool
  | [], _ => true
  | WireAction.lock :: as, d => encodesLocked as (d + 1)
  | WireAction.unlock :: as, d => encodesLocked as (d - 1)
  | WireAction.encode :: as, d => decide (0 < d) && encodesLocked as d

/-- Claim C7 (code behaviour): neither write-path method holds the mutex
(or any lock) around its `Encode` call — `WriteRequest` takes no lock at
all and `WriteResponse` releases the mutex before encoding — so the codec
itself does not serialize concurrent stream writes. -/
theorem c7_encode_not_serialized :
    encodesLocked writeRequestActions 0 = false
    ∧ encodesLocked writeResponseActions 0 = false := by
  decide

/-- Claim C8 (counterexample): the error text `"null"` is non-empty and is
not a JSON array, yet the serialized frame carries a JSON null error — not
the plain text string `"null"` the claim requires — because
`json.Unmarshal("null", &iErr)` succeeds leaving the slice nil and a nil
slice marshals to null. -/
theorem c8_error_shape_counterexample :
    (writeResponse { pending := [(1, some (Json.num 7))], seq := 1 }
        { seq := 1, error := "null" } Json.null).1
      = Except.ok { id := Json.num 7, result := Json.null, error := Json.null }
    ∧ ("null" : String) ≠ ""
    ∧ (∀ es : List Json, parseJson "null" ≠ some (Json.arr es))
    ∧ Json.null ≠ Json.str "null" := by
  refine ⟨rfl, by decide, ?_, ?_⟩
  · intro es h
    have h' : (some Json.null : Option Json) = some (Json.arr es) := by
      rw [show (some Json.null : Option Json) = parseJson "null" from rfl, h]
    exact Json.noConfusion (Option.some.inj h')
  · intro h
    exact Json.noConfusion h

/-- Claim C8 as amended: for a pending sequence number, an empty error text
emits the result with a null error; a non-empty error text emits a null
result together with the parsed array when the text is a JSON array, a
JSON null when the text is the JSON literal `null` (the nil slice case),
and the plain text string otherwise. -/
theorem c8_error_shapes_amended (st : CodecState) (r : Response) (x : Json) (jid : Json)
    (hs : mapLookup r.seq st.pending = some (some jid)) :
    (r.error = "" →
      (writeResponse st r x).1
        = Except.ok { id := jid, result := x, error := Json.null })
    ∧ (∀ es, r.error ≠ "" → parseJson r.error = some (Json.arr es) →
      (writeResponse st r x).1
        = Except.ok { id := jid, result := Json.null, error := Json.arr es })
    ∧ (r.error ≠ "" → parseJson r.error = some Json.null →
      (writeResponse st r x).1
        = Except.ok { id := jid, result := Json.null, error := Json.null })
    ∧ (r.error ≠ "" → unmarshalSlice r.error = none →
      (writeResponse st r x).1
        = Except.ok { id := jid, result := Json.null, error := Json.str r.error }) := by
  unfold writeResponse
  rw [hs]
  dsimp only
  refine ⟨?_, ?_, ?_, ?_⟩
  · intro he
    rw [if_pos he]
  · intro es hne hp
    rw [if_neg hne]
    have hu : unmarshalSlice r.error = some (some es) := by
      unfold unmarshalSlice
      rw [hp]
    rw [hu]
  · intro hne hp
    rw [if_neg hne]
    have hu : unmarshalSlice r.error = some none := by
      unfold unmarshalSlice
      rw [hp]
    rw [hu]
  · intro hne hu
    rw [if_neg hne, hu]

theorem c8_error_shapes_amended_witness :
    (writeResponse { pending := [(1, some (Json.num 7))], seq := 1 }
        { seq := 1, error := "boom" } Json.null).1
      = Except.ok { id := Json.num 7, result := Json.null, error := Json.str "boom" } :=
  (c8_error_shapes_amended { pending := [(1, some (Json.num 7))], seq := 1 }
      { seq := 1, error := "boom" } Json.null (Json.num 7) rfl).2.2.2 (by decide) rfl

end StratumRpc
